import Mathlib

/-!
Shallow embedding of the CampusTrace lost-and-found workflow
(`src/App.tsx`, `src/constants.ts`, `src/services/geminiService.ts`,
and the type declarations in `src/unnamed/part_001`).

The React component state `items : Item[]` is modelled as a `List Item`;
each handler becomes a pure function from the old list (plus its inputs)
to the new list, mirroring the body of the corresponding `setItems` call.
Randomly generated ids and `Date`-derived timestamps are passed in as
explicit parameters.
-/

namespace CampusTrace

/-- `ItemType` enum from `types.ts` (`src/unnamed/part_001`). -/
inductive ItemType
  | LOST
  | FOUND
deriving DecidableEq

/-- `ItemStatus` enum from `types.ts`. -/
inductive ItemStatus
  | PENDING_APPROVAL
  | UNCLAIMED
  | CLAIM_REQUESTED
  | RETURNED
deriving DecidableEq

/-- `Category` enum from `types.ts` (the closed category enumeration). -/
inductive Category
  | ELECTRONICS
  | BOOKS
  | CLOTHING
  | KEYS
  | CARDS
  | OTHER
deriving DecidableEq

/-- User role: `'STUDENT' | 'ADMIN'` from `types.ts`. -/
inductive Role
  | STUDENT
  | ADMIN
deriving DecidableEq

/-- `User` interface from `types.ts`. -/
structure User where
  id : String
  email : String
  role : Role
deriving DecidableEq

/-- Claim status: `'PENDING' | 'APPROVED' | 'REJECTED'` from `types.ts`. -/
inductive ClaimStatus
  | PENDING
  | APPROVED
  | REJECTED
deriving DecidableEq

/-- `ClaimRequest` interface from `types.ts`. -/
structure ClaimRequest where
  id : String
  userId : String
  userEmail : String
  message : String
  contact : String
  status : ClaimStatus
deriving DecidableEq

/-- `Item` interface from `types.ts`. `imageUrl` is optional there. -/
structure Item where
  id : String
  title : String
  type : ItemType
  category : Category
  location : String
  date : String
  description : String
  imageUrl : Option String
  status : ItemStatus
  userId : String
  claims : List ClaimRequest
  createdAt : String
deriving DecidableEq

/-- The draft fields held in the `newItem` form state of `App.tsx`
(the fields of `Partial Item` that `handlePost` spreads into the new item). -/
structure ItemDraft where
  title : String
  type : ItemType
  category : Category
  location : String
  date : String
  description : String
  imageUrl : Option String
deriving DecidableEq

/-- `INITIAL_ITEMS` from `src/constants.ts`.  The `createdAt` timestamps are
`new Date().toISOString()` at module-load time, passed here as `now`. -/
def INITIAL_ITEMS (now : String) : List Item :=
  [ { id := "1", title := "MacBook Air M2 Silver", type := ItemType.LOST,
      category := Category.ELECTRONICS, location := "Engineering Hall Lab 3",
      date := "2024-05-15",
      description := "Silver MacBook with a stickers of a rocket ship on the lid. Left it on the desk near the window.",
      imageUrl := none, status := ItemStatus.UNCLAIMED, userId := "user-1",
      claims := [], createdAt := now },
    { id := "2", title := "Blue Water Bottle", type := ItemType.FOUND,
      category := Category.OTHER, location := "Campus Gym Cardio Zone",
      date := "2024-05-18",
      description := "Hydro Flask style, blue, has some scratches at the bottom.",
      imageUrl := none, status := ItemStatus.UNCLAIMED, userId := "user-2",
      claims := [], createdAt := now },
    { id := "3", title := "Dorm Keys - Green Lanyard", type := ItemType.FOUND,
      category := Category.KEYS, location := "Main Library Level 2",
      date := "2024-05-19",
      description := "Found a set of 3 keys on a green university lanyard near the study pods.",
      imageUrl := none, status := ItemStatus.PENDING_APPROVAL, userId := "user-3",
      claims := [], createdAt := now } ]

/-- JavaScript `s.includes(q)` on strings: `q` occurs as a contiguous
substring of `s` (modelled on the character lists). -/
def jsIncludes (s q : String) : Bool :=
  decide (List.IsInfix q.data s.data)

/-- JavaScript `s.toLowerCase()`, modelled characterwise. -/
def jsToLower (s : String) : String :=
  String.mk (s.data.map Char.toLower)

/-- JavaScript `s.trim()`: strip leading and trailing whitespace. -/
def jsTrim (s : String) : String :=
  String.mk
    (((s.data.dropWhile Char.isWhitespace).reverse.dropWhile
        Char.isWhitespace).reverse)

/-- The `matchSearch` conjunct of `filteredItems` (`App.tsx` line 242):
case-insensitive substring match of the query against title or description. -/
def matchSearch (searchQuery : String) (it : Item) : Bool :=
  jsIncludes (jsToLower it.title) (jsToLower searchQuery)
    || jsIncludes (jsToLower it.description) (jsToLower searchQuery)

/-- The `matchCategory` conjunct (`App.tsx` line 244): `none` models the
`'ALL'` sentinel of `activeCategory`. -/
def matchCategory (activeCategory : Option Category) (it : Item) : Bool :=
  match activeCategory with
  | none => true
  | some c => decide (it.category = c)

/-- The `isVisible` conjunct (`App.tsx` line 245):
`it.status !== PENDING_APPROVAL || it.userId === currentUser?.id ||
currentUser?.role === 'ADMIN'`.  When `currentUser` is `null` the last two
disjuncts are false in JavaScript. -/
def isVisible (currentUser : Option User) (it : Item) : Bool :=
  match currentUser with
  | none => decide (it.status ≠ ItemStatus.PENDING_APPROVAL)
  | some u =>
      decide (it.status ≠ ItemStatus.PENDING_APPROVAL
        ∨ it.userId = u.id ∨ u.role = Role.ADMIN)

/-- `filteredItems` memo (`App.tsx` lines 240-248). -/
def filteredItems (items : List Item) (searchQuery : String)
    (activeCategory : Option Category) (currentUser : Option User) : List Item :=
  items.filter (fun it =>
    matchSearch searchQuery it && matchCategory activeCategory it
      && isVisible currentUser it)

/-- `handlePost` (`App.tsx` lines 152-173): builds the new item from the
draft, the current user, a freshly generated id and the current timestamp,
and prepends it to the list (`setItems([item, ...items])`). -/
def handlePost (items : List Item) (draft : ItemDraft) (u : User)
    (newId createdAt : String) : List Item :=
  { id := newId, title := draft.title, type := draft.type,
    category := draft.category, location := draft.location, date := draft.date,
    description := draft.description, imageUrl := draft.imageUrl,
    status := ItemStatus.PENDING_APPROVAL, userId := u.id, claims := [],
    createdAt := createdAt } :: items

/-- The `ClaimRequest` literal built by `handleClaimSubmit`
(`App.tsx` lines 207-214), with the generated id passed in. -/
def mkClaim (claimId : String) (u : User) (message contact : String) :
    ClaimRequest :=
  { id := claimId, userId := u.id, userEmail := u.email, message := message,
    contact := contact, status := ClaimStatus.PENDING }

/-- The state update performed by `handleClaimSubmit`
(`App.tsx` lines 216-218): every item whose id equals the selected item's id
gets status `CLAIM_REQUESTED` and the claim appended.  Note the handler body
itself contains no check of the item's current status. -/
def handleClaimSubmitUpdate (items : List Item) (selectedItem : Item)
    (claim : ClaimRequest) : List Item :=
  items.map (fun it =>
    if it.id = selectedItem.id then
      { it with status := ItemStatus.CLAIM_REQUESTED,
                claims := it.claims ++ [claim] }
    else it)

/-- The claim-form visibility condition (`App.tsx` line 666):
`selectedItem.userId !== currentUser.id && selectedItem.status === UNCLAIMED`.
The claim form, and with it `handleClaimSubmit`, is only reachable when this
holds. -/
def claimFormAvailable (currentUser : User) (selectedItem : Item) : Bool :=
  decide (selectedItem.userId ≠ currentUser.id)
    && decide (selectedItem.status = ItemStatus.UNCLAIMED)

/-- The claim-submission operation as wired in the UI: the form that invokes
`handleClaimSubmit` is rendered only under `claimFormAvailable`
(`App.tsx` lines 666-687); when it is not, no submission happens and the
state is unchanged. -/
def submitClaim (items : List Item) (selectedItem : Item) (currentUser : User)
    (claimId message contact : String) : List Item :=
  if claimFormAvailable currentUser selectedItem then
    handleClaimSubmitUpdate items selectedItem
      (mkClaim claimId currentUser message contact)
  else items

/-- The action argument of `handleAdminAction`
(`'APPROVE' | 'DELETE' | 'MARK_RETURNED'`). -/
inductive AdminAction
  | APPROVE
  | DELETE
  | MARK_RETURNED
deriving DecidableEq

/-- `handleAdminAction` (`App.tsx` lines 226-238): `DELETE` filters the item
out; `APPROVE` and `MARK_RETURNED` map the matching item's status to
`UNCLAIMED` resp. `RETURNED` via the `statusMap` object, with no check of the
current status. -/
def handleAdminAction (items : List Item) (targetId : String)
    (action : AdminAction) : List Item :=
  match action with
  | AdminAction.DELETE => items.filter (fun it => decide (it.id ≠ targetId))
  | AdminAction.APPROVE =>
      items.map (fun it =>
        if it.id = targetId then { it with status := ItemStatus.UNCLAIMED }
        else it)
  | AdminAction.MARK_RETURNED =>
      items.map (fun it =>
        if it.id = targetId then { it with status := ItemStatus.RETURNED }
        else it)

/-- Lookup of an item by id (the read used by detail views and the spec's
notion of a lookup returning NotFound). -/
def lookupItem (items : List Item) (targetId : String) : Option Item :=
  items.find? (fun it => decide (it.id = targetId))

/-- Outcome of the underlying `ai.models.generateContent` call in
`src/services/geminiService.ts`: the call either throws, or resolves with
`response.text` absent (`undefined`) or present. -/
inductive AiOutcome
  | throws
  | ok (text : Option String)
deriving DecidableEq

/-- `enhanceDescription` (`geminiService.ts` lines 22-33):
`return response.text?.trim() || text` inside `try`, with `catch` returning
`text`.  A present but whitespace-only response trims to the empty string,
which is falsy in JavaScript, so `|| text` yields the original input. -/
def enhanceDescription (text : String) (ai : AiOutcome) : String :=
  match ai with
  | AiOutcome.throws => text
  | AiOutcome.ok none => text
  | AiOutcome.ok (some s) => if jsTrim s = "" then text else jsTrim s

/-- `suggestCategory` (`geminiService.ts` lines 35-46):
`return response.text?.trim() || 'Other'` inside `try`, with `catch`
returning `'Other'`.  The title and description only feed the prompt; the
returned string is the model's text, not validated against the category
enumeration. -/
def suggestCategory (_title _description : String) (ai : AiOutcome) : String :=
  match ai with
  | AiOutcome.throws => "Other"
  | AiOutcome.ok none => "Other"
  | AiOutcome.ok (some s) => if jsTrim s = "" then "Other" else jsTrim s

/-- The string values of the closed `Category` enumeration from `types.ts`
(also the list offered to the model in the `suggestCategory` prompt). -/
def categoryNames : List String :=
  ["Electronics", "Books & Stationery", "Clothing & Accessories", "Keys",
   "Cards & IDs", "Other"]

/-- The AI call failed in one of the ways `geminiService.ts` handles: the
promise rejected, `response.text` was absent, or the text trimmed to the
empty string (falsy in JavaScript). -/
def aiFailed (ai : AiOutcome) : Prop :=
  ai = AiOutcome.throws ∨ ai = AiOutcome.ok none
    ∨ ∃ s, ai = AiOutcome.ok (some s) ∧ jsTrim s = ""

/-- No item carries a claim whose claimant is the item's own poster. -/
def NoSelfClaims (items : List Item) : Prop :=
  ∀ it ∈ items, ∀ c ∈ it.claims, c.userId ≠ it.userId

/-- State invariant maintained by the app: item ids are pairwise distinct
(freshly generated on post) and no item holds a self-claim. -/
def GoodState (items : List Item) : Prop :=
  (items.map Item.id).Nodup ∧ NoSelfClaims items

/-- One user-level step of the application: posting a new report (with a
freshly generated id), submitting a claim through the claim form for a
currently listed item, or a moderator action. -/
inductive AppStep : List Item → List Item → Prop
  | post (items : List Item) (draft : ItemDraft) (u : User)
      (newId createdAt : String) (hfresh : newId ∉ items.map Item.id) :
      AppStep items (handlePost items draft u newId createdAt)
  | claim (items : List Item) (sel : Item) (hsel : sel ∈ items) (u : User)
      (claimId message contact : String) :
      AppStep items (submitClaim items sel u claimId message contact)
  | admin (items : List Item) (targetId : String) (action : AdminAction) :
      AppStep items (handleAdminAction items targetId action)

/-- States reachable from the initial item list (loaded at time `now`) by
user-level steps. -/
def Reachable (now : String) (items : List Item) : Prop :=
  Relation.ReflTransGen AppStep (INITIAL_ITEMS now) items

/-- A concrete pending report, used to instantiate theorems. -/
def samplePending : Item :=
  { id := "p1", title := "Dorm Keys", type := ItemType.FOUND,
    category := Category.KEYS, location := "Library", date := "2024-05-19",
    description := "three keys", imageUrl := none,
    status := ItemStatus.PENDING_APPROVAL, userId := "user-3", claims := [],
    createdAt := "t0" }

/-- A concrete moderator identity. -/
def adminUser : User :=
  { id := "a-1", email := "mod@uni.edu", role := Role.ADMIN }

/-- C1: for every item list, viewer, search query and category filter,
`filteredItems` returns an item with status `PENDING_APPROVAL` only when the
viewer is the item's owner (`userId`) or has role `ADMIN`; all other viewers
never see pending items in the listing, whatever the text or category
filters. -/
theorem pending_visible_only_to_owner_or_admin
    (items : List Item) (searchQuery : String)
    (activeCategory : Option Category) (viewer : Option User) (it : Item)
    (hmem : it ∈ filteredItems items searchQuery activeCategory viewer)
    (hpend : it.status = ItemStatus.PENDING_APPROVAL) :
    ∃ u, viewer = some u ∧ (it.userId = u.id ∨ u.role = Role.ADMIN) := by
  rw [filteredItems, List.mem_filter] at hmem
  obtain ⟨-, hcond⟩ := hmem
  rw [Bool.and_eq_true, Bool.and_eq_true] at hcond
  obtain ⟨⟨-, -⟩, hvis⟩ := hcond
  cases viewer with
  | none =>
      simp only [isVisible, decide_eq_true_eq] at hvis
      exact absurd hpend hvis
  | some u =>
      simp only [isVisible, decide_eq_true_eq] at hvis
      rcases hvis with h | h | h
      · exact absurd hpend h
      · exact ⟨u, rfl, Or.inl h⟩
      · exact ⟨u, rfl, Or.inr h⟩

/-- Witness for C1: a pending item is listed for an admin viewer, and the
theorem's conclusion holds there. -/
theorem pending_visible_only_to_owner_or_admin_witness :
    samplePending ∈ filteredItems [samplePending] "" none (some adminUser)
    ∧ samplePending.status = ItemStatus.PENDING_APPROVAL
    ∧ ∃ u, some adminUser = some u
        ∧ (samplePending.userId = u.id ∨ u.role = Role.ADMIN) :=
  ⟨by decide, by decide,
    pending_visible_only_to_owner_or_admin [samplePending] "" none
      (some adminUser) samplePending (by decide) (by decide)⟩

/-- C6: `handleAdminAction` with `DELETE` removes every item with the target
id (and, with it, all of that item's claims, which live inside the item
record); afterwards a lookup by that id finds nothing, and exactly the items
with a different id remain. -/
theorem delete_removes_item_and_claims (items : List Item) (targetId : String) :
    lookupItem (handleAdminAction items targetId AdminAction.DELETE) targetId
        = none
    ∧ ∀ it : Item,
        it ∈ handleAdminAction items targetId AdminAction.DELETE
          ↔ (it ∈ items ∧ it.id ≠ targetId) := by
  constructor
  · rw [lookupItem, List.find?_eq_none]
    intro x hx
    simp only [handleAdminAction, List.mem_filter, decide_eq_true_eq] at hx
    simpa using hx.2
  · intro it
    simp [handleAdminAction, List.mem_filter]

/-- C7: `handlePost` creates an item whose status is `PENDING_APPROVAL`,
whose `userId` is the submitter's id and whose claims list is empty, and
prepends it to the list. -/
theorem post_creates_pending_owned_item (items : List Item) (draft : ItemDraft)
    (u : User) (newId createdAt : String) :
    ∃ newIt : Item,
      handlePost items draft u newId createdAt = newIt :: items
      ∧ newIt.status = ItemStatus.PENDING_APPROVAL
      ∧ newIt.userId = u.id ∧ newIt.claims = [] :=
  ⟨_, rfl, rfl, rfl, rfl⟩

/-- Unfolding of the APPROVE branch of `handleAdminAction` as a map. -/
lemma approve_eq_map (items : List Item) (targetId : String) :
    handleAdminAction items targetId AdminAction.APPROVE
      = items.map (fun it =>
          if it.id = targetId then { it with status := ItemStatus.UNCLAIMED }
          else it) := rfl

/-- Unfolding of the MARK_RETURNED branch of `handleAdminAction` as a map. -/
lemma mark_returned_eq_map (items : List Item) (targetId : String) :
    handleAdminAction items targetId AdminAction.MARK_RETURNED
      = items.map (fun it =>
          if it.id = targetId then { it with status := ItemStatus.RETURNED }
          else it) := rfl

/-- Unfolding of the DELETE branch of `handleAdminAction` as a filter. -/
lemma delete_eq_filter (items : List Item) (targetId : String) :
    handleAdminAction items targetId AdminAction.DELETE
      = items.filter (fun it => decide (it.id ≠ targetId)) := rfl

/-- Pointwise description of a mapped list, used to state framing facts. -/
lemma forall2_map_of_mem {f : Item → Item} {P : Item → Item → Prop}
    (items : List Item) (h : ∀ it ∈ items, P it (f it)) :
    List.Forall₂ P items (items.map f) := by
  induction items with
  | nil => exact List.Forall₂.nil
  | cons a l ih =>
      exact List.Forall₂.cons (h a (List.mem_cons_self a l))
        (ih fun it hit => h it (List.mem_cons_of_mem a hit))

/-- C8: whenever the underlying AI call fails (the promise rejects, the
response text is absent, or it trims to the empty string), `enhanceDescription`
returns its input text unchanged; being a total function of the outcome it
never propagates an error to the caller. -/
theorem enhance_on_failure_is_identity (text : String) (ai : AiOutcome)
    (h : aiFailed ai) : enhanceDescription text ai = text := by
  rcases h with h | h | ⟨s, h, hs⟩
  · subst h; rfl
  · subst h; rfl
  · subst h; simp [enhanceDescription, hs]

/-- Witness for C8: a timed-out enhancement of "broken headphones" returns
the input unchanged. -/
theorem enhance_on_failure_is_identity_witness :
    aiFailed AiOutcome.throws
    ∧ enhanceDescription "broken headphones" AiOutcome.throws
        = "broken headphones" :=
  ⟨Or.inl rfl,
    enhance_on_failure_is_identity "broken headphones" AiOutcome.throws
      (Or.inl rfl)⟩

/-- Counterexample to C9 as stated: when the AI call succeeds with a string
outside the category enumeration, `suggestCategory` passes it through
unvalidated, so the result does not belong to the closed enumeration. -/
theorem suggest_category_escapes_enumeration :
    suggestCategory "Sony headphones" "black, noise cancelling"
        (AiOutcome.ok (some "Banana")) = "Banana"
    ∧ "Banana" ∉ categoryNames := by decide

/-- C9 amended: on any failure of the AI call `suggestCategory` returns the
catch-all "Other" (which is in the closed enumeration) and never raises; on a
successful call it returns the model's trimmed text as-is, without validating
it against the enumeration. -/
theorem suggest_category_fallback (title description : String)
    (ai : AiOutcome) :
    (aiFailed ai → suggestCategory title description ai = "Other")
    ∧ "Other" ∈ categoryNames
    ∧ ∀ s, ai = AiOutcome.ok (some s) → jsTrim s ≠ "" →
        suggestCategory title description ai = jsTrim s := by
  refine ⟨?_, by decide, ?_⟩
  · intro h
    rcases h with h | h | ⟨s, h, hs⟩
    · subst h; rfl
    · subst h; rfl
    · subst h; simp [suggestCategory, hs]
  · intro s h hs
    subst h
    simp [suggestCategory, hs]

/-- Witness for C9 amended: a throwing call yields "Other". -/
theorem suggest_category_fallback_witness :
    aiFailed AiOutcome.throws
    ∧ suggestCategory "keys" "on a lanyard" AiOutcome.throws = "Other" :=
  ⟨Or.inl rfl,
    ((suggest_category_fallback "keys" "on a lanyard" AiOutcome.throws).1
      (Or.inl rfl))⟩

/-- A concrete claimant. -/
def userB : User :=
  { id := "u-b", email := "b@uni.edu", role := Role.STUDENT }

/-- A concrete item in status CLAIM_REQUESTED. -/
def sampleClaimRequested : Item :=
  { id := "9", title := "Casio Calculator", type := ItemType.FOUND,
    category := Category.ELECTRONICS, location := "Exam Hall",
    date := "2024-05-20", description := "scientific calculator",
    imageUrl := none, status := ItemStatus.CLAIM_REQUESTED,
    userId := "user-9",
    claims := [mkClaim "c0" userB "it has a cat sticker" "b-chat"],
    createdAt := "t0" }

/-- Counterexample to C2 as stated: `handleAdminAction` with APPROVE has no
status guard.  Applied to an item whose status is CLAIM_REQUESTED (not
PENDING_APPROVAL) it is not a no-op: it overwrites the status with UNCLAIMED,
so the item's state changes. -/
theorem approve_not_guarded_counterexample :
    sampleClaimRequested.status ≠ ItemStatus.PENDING_APPROVAL
    ∧ handleAdminAction [sampleClaimRequested] "9" AdminAction.APPROVE
        ≠ [sampleClaimRequested]
    ∧ handleAdminAction [sampleClaimRequested] "9" AdminAction.APPROVE
        = [{ sampleClaimRequested with status := ItemStatus.UNCLAIMED }] := by
  decide

/-- C2 amended: APPROVE sets the status of every item with the target id to
UNCLAIMED regardless of its current status (the handler has no
PENDING_APPROVAL guard), leaves all other items unchanged, and is idempotent,
so a second approve changes nothing only because the status is already
UNCLAIMED. -/
theorem approve_unconditional_idempotent (items : List Item)
    (targetId : String) :
    List.Forall₂ (fun it it' =>
        (it.id = targetId → it' = { it with status := ItemStatus.UNCLAIMED })
        ∧ (it.id ≠ targetId → it' = it))
      items (handleAdminAction items targetId AdminAction.APPROVE)
    ∧ handleAdminAction (handleAdminAction items targetId AdminAction.APPROVE)
        targetId AdminAction.APPROVE
      = handleAdminAction items targetId AdminAction.APPROVE := by
  constructor
  · rw [approve_eq_map]
    apply forall2_map_of_mem
    intro it _
    by_cases h : it.id = targetId <;> simp [h]
  · rw [approve_eq_map, approve_eq_map, List.map_map]
    apply List.map_congr_left
    intro a _
    by_cases h : a.id = targetId <;> simp [Function.comp, h]

/-- All fields of an item other than `status` agree. -/
def FrameExceptStatus (it it' : Item) : Prop :=
  it'.id = it.id ∧ it'.title = it.title ∧ it'.type = it.type
    ∧ it'.category = it.category ∧ it'.location = it.location
    ∧ it'.date = it.date ∧ it'.description = it.description
    ∧ it'.imageUrl = it.imageUrl ∧ it'.userId = it.userId
    ∧ it'.claims = it.claims ∧ it'.createdAt = it.createdAt

/-- C10: APPROVE and MARK_RETURNED change at most the `status` field of items
whose id matches and leave non-matching items untouched; DELETE keeps every
non-matching item; and when no item carries the target id, all three actions
leave the list exactly as it was. -/
theorem admin_action_frame (items : List Item) (targetId : String) :
    List.Forall₂ (fun it it' =>
        FrameExceptStatus it it' ∧ (it.id ≠ targetId → it' = it))
      items (handleAdminAction items targetId AdminAction.APPROVE)
    ∧ List.Forall₂ (fun it it' =>
        FrameExceptStatus it it' ∧ (it.id ≠ targetId → it' = it))
      items (handleAdminAction items targetId AdminAction.MARK_RETURNED)
    ∧ (∀ it ∈ items, it.id ≠ targetId →
        it ∈ handleAdminAction items targetId AdminAction.DELETE)
    ∧ ((∀ it ∈ items, it.id ≠ targetId) →
        ∀ action, handleAdminAction items targetId action = items) := by
  refine ⟨?_, ?_, ?_, ?_⟩
  · rw [approve_eq_map]
    apply forall2_map_of_mem
    intro it _
    by_cases h : it.id = targetId <;> simp [FrameExceptStatus, h]
  · rw [mark_returned_eq_map]
    apply forall2_map_of_mem
    intro it _
    by_cases h : it.id = targetId <;> simp [FrameExceptStatus, h]
  · intro it hmem hne
    rw [delete_eq_filter, List.mem_filter]
    exact ⟨hmem, by simp [hne]⟩
  · intro hall action
    cases action with
    | DELETE =>
        rw [delete_eq_filter]
        exact List.filter_eq_self.mpr fun a ha => by simp [hall a ha]
    | APPROVE =>
        rw [approve_eq_map]
        calc items.map _ = items.map id :=
              List.map_congr_left fun a ha => by simp [hall a ha]
          _ = items := List.map_id items
    | MARK_RETURNED =>
        rw [mark_returned_eq_map]
        calc items.map _ = items.map id :=
              List.map_congr_left fun a ha => by simp [hall a ha]
          _ = items := List.map_id items

/-- Witness for C10, at a two-item list with one matching id. -/
theorem admin_action_frame_witness :
    List.Forall₂ (fun it it' =>
        FrameExceptStatus it it' ∧ (it.id ≠ "9" → it' = it))
      [sampleClaimRequested, samplePending]
      (handleAdminAction [sampleClaimRequested, samplePending] "9"
        AdminAction.APPROVE) :=
  (admin_action_frame [sampleClaimRequested, samplePending] "9").1

/-- A concrete item in status UNCLAIMED, owned by "owner-7". -/
def sampleUnclaimed : Item :=
  { id := "7", title := "Blue Water Bottle", type := ItemType.FOUND,
    category := Category.OTHER, location := "Campus Gym", date := "2024-05-18",
    description := "blue, scratched", imageUrl := none,
    status := ItemStatus.UNCLAIMED, userId := "owner-7", claims := [],
    createdAt := "t0" }

/-- The state after a first claim submission against `sampleUnclaimed`. -/
def afterFirstClaim : List Item :=
  handleClaimSubmitUpdate [sampleUnclaimed] sampleUnclaimed
    (mkClaim "c1" userB "it is mine, scratches at the bottom" "b-chat")

/-- Counterexample to C3 as stated: the body of `handleClaimSubmit` has no
status guard.  After a first successful submission the item is
CLAIM_REQUESTED, yet running the handler's update again appends a second
claim and changes the state instead of failing with no state change. -/
theorem claim_submit_not_guarded_counterexample :
    (lookupItem afterFirstClaim "7").map Item.status
        = some ItemStatus.CLAIM_REQUESTED
    ∧ handleClaimSubmitUpdate afterFirstClaim sampleUnclaimed
        (mkClaim "c2" userB "still mine" "b-chat") ≠ afterFirstClaim := by
  decide

/-- C3 amended: the UNCLAIMED-only restriction is enforced not by the handler
body but by the claim-form availability condition; the submission flow
(`submitClaim` = availability guard + handler update) leaves the state
unchanged whenever the selected item is not UNCLAIMED, and when the form is
available it appends a PENDING claim to the matching item and sets its status
to CLAIM_REQUESTED, so a second flow submission against the now
CLAIM_REQUESTED item is rejected with no state change. -/
theorem claim_submission_flow (items : List Item) (sel : Item) (u : User)
    (claimId message contact : String) :
    (sel.status ≠ ItemStatus.UNCLAIMED →
        submitClaim items sel u claimId message contact = items)
    ∧ (claimFormAvailable u sel = true →
        List.Forall₂ (fun it it' =>
            (it.id = sel.id →
              it' = { it with
                        status := ItemStatus.CLAIM_REQUESTED,
                        claims := it.claims
                          ++ [mkClaim claimId u message contact] })
            ∧ (it.id ≠ sel.id → it' = it))
          items (submitClaim items sel u claimId message contact))
    ∧ (mkClaim claimId u message contact).status = ClaimStatus.PENDING
    ∧ ∀ sel' claimId2 message2 contact2,
        sel'.status = ItemStatus.CLAIM_REQUESTED →
        submitClaim (submitClaim items sel u claimId message contact) sel' u
            claimId2 message2 contact2
          = submitClaim items sel u claimId message contact := by
  refine ⟨?_, ?_, rfl, ?_⟩
  · intro h
    simp [submitClaim, claimFormAvailable, h]
  · intro hg
    rw [submitClaim, if_pos hg]
    apply forall2_map_of_mem
    intro it _
    by_cases h : it.id = sel.id <;> simp [h]
  · intro sel' claimId2 message2 contact2 h
    simp [submitClaim, claimFormAvailable, h]

/-- Witness for C3 amended: instantiated at the concrete UNCLAIMED item, a
non-owner claimant, and a second submission against the updated item. -/
theorem claim_submission_flow_witness :
    claimFormAvailable userB sampleUnclaimed = true
    ∧ List.Forall₂ (fun it it' =>
        (it.id = sampleUnclaimed.id →
          it' = { it with
                    status := ItemStatus.CLAIM_REQUESTED,
                    claims := it.claims
                      ++ [mkClaim "c1" userB "it is mine, scratches at the bottom"
                            "b-chat"] })
        ∧ (it.id ≠ sampleUnclaimed.id → it' = it))
      [sampleUnclaimed]
      (submitClaim [sampleUnclaimed] sampleUnclaimed userB "c1"
        "it is mine, scratches at the bottom" "b-chat") :=
  ⟨by decide,
    (claim_submission_flow [sampleUnclaimed] sampleUnclaimed userB "c1"
      "it is mine, scratches at the bottom" "b-chat").2.1 (by decide)⟩

/-- C5: the repository's claim-schema design (`ClaimSchema` in
`src/unnamed/part_003`) declares `message: minlength 20` ("Ensure they
provide actual proof"), but neither `handleClaimSubmit` nor the claim form
enforces any minimum length, so a 4-character message is accepted: the claim
is appended and the item transitions to CLAIM_REQUESTED. -/
theorem short_message_claim_accepted :
    ("mine" : String).length < 20
    ∧ submitClaim [sampleUnclaimed] sampleUnclaimed userB "c1" "mine" "b-chat"
        = [{ sampleUnclaimed with
               status := ItemStatus.CLAIM_REQUESTED,
               claims := [mkClaim "c1" userB "mine" "b-chat"] }] := by
  decide

/-- Posting preserves the state invariant: the fresh id keeps the ids
pairwise distinct and the new item starts with no claims. -/
lemma goodState_post (items : List Item) (draft : ItemDraft) (u : User)
    (newId createdAt : String) (hfresh : newId ∉ items.map Item.id)
    (h : GoodState items) : GoodState (handlePost items draft u newId createdAt) := by
  obtain ⟨hnd, hns⟩ := h
  constructor
  · exact List.nodup_cons.mpr ⟨hfresh, hnd⟩
  · intro it hit c hc
    rcases List.mem_cons.mp hit with h1 | h1
    · subst h1
      exact absurd hc (List.not_mem_nil c)
    · exact hns it h1 c hc

/-- A status-overwriting map (the APPROVE / MARK_RETURNED shape) preserves
the state invariant: ids and claims are untouched. -/
lemma goodState_status_map (items : List Item) (targetId : String)
    (s : ItemStatus) (h : GoodState items) :
    GoodState (items.map (fun it =>
      if it.id = targetId then { it with status := s } else it)) := by
  obtain ⟨hnd, hns⟩ := h
  constructor
  · rw [List.map_map]
    have heq : items.map (Item.id ∘ fun it =>
        if it.id = targetId then { it with status := s } else it)
          = items.map Item.id :=
      List.map_congr_left fun a _ => by
        by_cases hid : a.id = targetId <;> simp [Function.comp, hid]
    rw [heq]
    exact hnd
  · intro it' hit' c hc
    obtain ⟨a, ha, rfl⟩ := List.mem_map.mp hit'
    by_cases hid : a.id = targetId
    · simp only [if_pos hid] at hc ⊢
      exact hns a ha c hc
    · simp only [if_neg hid] at hc ⊢
      exact hns a ha c hc

/-- Moderator actions preserve the state invariant. -/
lemma goodState_admin (items : List Item) (targetId : String)
    (action : AdminAction) (h : GoodState items) :
    GoodState (handleAdminAction items targetId action) := by
  cases action with
  | DELETE =>
      obtain ⟨hnd, hns⟩ := h
      constructor
      · exact List.Nodup.sublist
          (List.Sublist.map Item.id (List.filter_sublist items)) hnd
      · intro it hit c hc
        exact hns it (List.mem_filter.mp hit).1 c hc
  | APPROVE =>
      rw [approve_eq_map]
      exact goodState_status_map items targetId ItemStatus.UNCLAIMED h
  | MARK_RETURNED =>
      rw [mark_returned_eq_map]
      exact goodState_status_map items targetId ItemStatus.RETURNED h

/-- Submitting through the claim form preserves the state invariant: the form
is only available when the claimant is not the owner of the selected item,
and distinct ids make the selected item the only one updated. -/
lemma goodState_claim (items : List Item) (sel : Item) (hsel : sel ∈ items)
    (u : User) (claimId message contact : String) (h : GoodState items) :
    GoodState (submitClaim items sel u claimId message contact) := by
  obtain ⟨hnd, hns⟩ := h
  rw [submitClaim]
  by_cases hg : claimFormAvailable u sel = true
  case neg =>
    rw [if_neg hg]
    exact ⟨hnd, hns⟩
  rw [if_pos hg]
  have hga := hg
  simp only [claimFormAvailable, Bool.and_eq_true, decide_eq_true_eq] at hga
  obtain ⟨hown, -⟩ := hga
  constructor
  · rw [handleClaimSubmitUpdate, List.map_map]
    have heq : items.map (Item.id ∘ fun it =>
        if it.id = sel.id then
          { it with status := ItemStatus.CLAIM_REQUESTED,
                    claims := it.claims
                      ++ [mkClaim claimId u message contact] }
        else it) = items.map Item.id :=
      List.map_congr_left fun a _ => by
        by_cases hid : a.id = sel.id <;> simp [Function.comp, hid]
    rw [heq]
    exact hnd
  · intro it' hit' c hc
    rw [handleClaimSubmitUpdate] at hit'
    obtain ⟨a, ha, rfl⟩ := List.mem_map.mp hit'
    by_cases hid : a.id = sel.id
    · have haeq : a = sel := List.inj_on_of_nodup_map hnd ha hsel hid
      subst haeq
      simp only [if_pos hid] at hc ⊢
      rcases List.mem_append.mp hc with hcc | hcc
      · exact hns a ha c hcc
      · have hceq : c = mkClaim claimId u message contact :=
          List.mem_singleton.mp hcc
        subst hceq
        exact fun hco => hown hco.symm
    · simp only [if_neg hid] at hc ⊢
      exact hns a ha c hc

/-- Every step of the application preserves the state invariant. -/
lemma goodState_step {s s' : List Item} (hstep : AppStep s s')
    (h : GoodState s) : GoodState s' := by
  cases hstep with
  | post draft u newId createdAt hfresh =>
      exact goodState_post s draft u newId createdAt hfresh h
  | claim sel hsel u claimId message contact =>
      exact goodState_claim s sel hsel u claimId message contact h
  | admin targetId action =>
      exact goodState_admin s targetId action h

/-- The initial item list satisfies the state invariant. -/
lemma goodState_initial (now : String) : GoodState (INITIAL_ITEMS now) := by
  constructor
  · have heq : (INITIAL_ITEMS now).map Item.id = ["1", "2", "3"] := rfl
    rw [heq]
    decide
  · intro it hit c hc
    simp only [INITIAL_ITEMS, List.mem_cons, List.not_mem_nil, or_false] at hit
    rcases hit with rfl | rfl | rfl <;> exact absurd hc (List.not_mem_nil c)

/-- Every reachable state satisfies the invariant. -/
lemma reachable_goodState (now : String) (items : List Item)
    (h : Reachable now items) : GoodState items := by
  induction h with
  | refl => exact goodState_initial now
  | tail _ hbc ih => exact goodState_step hbc ih

/-- C4: submitting a claim against one's own item never succeeds (the claim
form is unavailable when the claimant owns the selected item, so the state is
returned unchanged), and consequently in every reachable state no item holds
a claim whose claimant id equals the item's owner id. -/
theorem owner_claim_never_succeeds :
    (∀ (items : List Item) (sel : Item) (u : User)
        (claimId message contact : String), sel.userId = u.id →
        submitClaim items sel u claimId message contact = items)
    ∧ ∀ (now : String) (items : List Item), Reachable now items →
        ∀ it ∈ items, ∀ c ∈ it.claims, c.userId ≠ it.userId := by
  constructor
  · intro items sel u claimId message contact h
    rw [submitClaim, if_neg]
    simp [claimFormAvailable, h]
  · intro now items h it hit c hc
    exact (reachable_goodState now items h).2 it hit c hc

end CampusTrace
